import Mathlib

set_option linter.unusedVariables false

/-!
Verification development for the HiDream API server job lifecycle engine.
The definitions below are a shallow embedding of the repository sources
models.py, hidream_api.py and pipelines/npu_pipeline.py, and the theorems
settle the specification claims about them.
-/

namespace HidreamAPI

/-- Embeds the enum TaskStatus of models.py. -/
inductive TaskStatus where
  | pending
  | processing
  | completed
  | failed
deriving DecidableEq, Repr

/-- Embeds ImageGenerationRequest of models.py together with its pydantic
field defaults.  The float field guidance_scale is modelled as a rational
number. -/
structure ImageGenerationRequest where
  prompt : String
  negative_prompt : String := ""
  resolution : String := "1024x1024"
  num_inference_steps : Nat := 50
  guidance_scale : ℚ := 15 / 2
  num_images_per_prompt : Nat := 1
  seed : Option Int := none
  batch_size : Nat := 1
  infer_type : String := "Accuracy"
deriving DecidableEq, Repr

/-- Embeds NPUHiDreamPipeline._calculate_distributed_config
(npu_pipeline.py lines 56-70): the device topology planner. -/
def calculate_distributed_config (device_count : Nat) : Nat × Nat :=
  if device_count = 1 then (1, 1)
  else if device_count = 2 then (2, 1)
  else if device_count = 4 then (4, 1)
  else if device_count = 8 then (4, 2)
  else
    let tp_size := min 4 device_count
    let ep_size := device_count / tp_size
    (tp_size, ep_size)

/-- The fixed progress keyword list of npu_pipeline.py line 238. -/
def progress_keywords : List String := ["step", "sampling", "inference"]

/-- Substring test on character lists, embedding the Python expression
keyword in line. -/
def sub_chars (needle : List Char) : List Char → Bool
  | [] => needle.isEmpty
  | c :: rest => needle.isPrefixOf (c :: rest) || sub_chars needle rest

/-- Character-wise lower casing, embedding str.lower() on the ASCII
keywords and output lines involved. -/
def lower_chars (s : String) : List Char := s.toList.map Char.toLower

/-- The progress condition of npu_pipeline.py line 238: some keyword is a
case-insensitive substring of the output line. -/
def line_matches (line : String) : Bool :=
  progress_keywords.any (fun k => sub_chars k.toList (lower_chars line))

/-- One iteration of the output reading loop of npu_pipeline.py lines
228-241 on one line: the new counter value together with the values
forwarded to the progress callback by this iteration. -/
def runner_step (progress : Int) (line : String) : Int × List Int :=
  if line_matches line then
    let p := min (progress + 2) 85
    (p, [p])
  else (progress, [])

/-- The whole output reading loop: final counter value and all forwarded
values, from a given starting counter. -/
def runner_run (progress : Int) : List String → Int × List Int
  | [] => (progress, [])
  | line :: rest =>
    let s := runner_step progress line
    let r := runner_run s.1 rest
    (r.1, s.2 ++ r.2)

/-- The progress values forwarded to the callback across one
_execute_inference read loop; the local counter starts at 30
(npu_pipeline.py line 225). -/
def runner_emit (lines : List String) : List Int := (runner_run 30 lines).2

/-- Embeds the Python slice lines[-n:]. -/
def lastN (n : Nat) (l : List String) : List String := l.drop (l.length - n)

/-- A file of the output directory, as the collector sees it: its path
string and its last modification time. -/
structure FileEnt where
  path : String
  mtime : Nat
deriving DecidableEq, Repr

/-- The fixed glob patterns of npu_pipeline.py line 283. -/
def image_globs : List String := [".png", ".jpg", ".jpeg", ".webp"]

/-- A file matches a pattern *.ext when its name ends with the
extension. -/
def matches_glob (f : FileEnt) (ext : String) : Bool :=
  ext.toList.isSuffixOf f.path.toList

/-- The image files found by the glob loop of npu_pipeline.py lines
283-285, one extension at a time. -/
def globbed_images (files : List FileEnt) : List FileEnt :=
  (image_globs.map (fun ext => files.filter (fun f => matches_glob f ext))).flatten

/-- Modification time descending, the order of
sort(key=getmtime, reverse=True) at npu_pipeline.py line 289. -/
def mtimeGeRel (a b : FileEnt) : Prop := b.mtime ≤ a.mtime

instance : DecidableRel mtimeGeRel := fun a b => Nat.decLe b.mtime a.mtime

instance : IsTotal FileEnt mtimeGeRel := ⟨fun a b => Nat.le_total b.mtime a.mtime⟩

instance : IsTrans FileEnt mtimeGeRel := ⟨fun _ _ _ h1 h2 => Nat.le_trans h2 h1⟩

/-- Embeds NPUHiDreamPipeline._collect_images (npu_pipeline.py lines
278-292): glob the image extensions, sort by modification time descending,
return the first num_images paths, and the empty list when nothing
matched. -/
def collect_images (files : List FileEnt) (num_images : Nat) : List String :=
  let image_paths := globbed_images files
  if image_paths.isEmpty then []
  else ((List.insertionSort mtimeGeRel image_paths).take num_images).map (fun f => f.path)

/-- Joins two path components, embedding Path division. -/
def path_join (a b : String) : String := a ++ "/" ++ b

/-- The last path component, embedding Path.name and os.path.basename. -/
def basename (p : String) : String :=
  String.mk ((p.toList.splitOn '/').getLastD p.toList)

/-- The three request attributes _run_single_inference and
_run_distributed_inference read from their request argument. -/
structure ReqParams where
  num_images_per_prompt : Nat
  resolution : String
  num_inference_steps : Nat
deriving DecidableEq, Repr

/-- Projection of a full request to the attributes the inference runners
read. -/
def reqParamsOf (r : ImageGenerationRequest) : ReqParams :=
  { num_images_per_prompt := r.num_images_per_prompt,
    resolution := r.resolution,
    num_inference_steps := r.num_inference_steps }

/-- The synthetic request object fabricated for the single-device retry at
npu_pipeline.py lines 258-262: num_images_per_prompt is the num_images
argument of _execute_inference, the other two attributes are literals. -/
def fallback_request (num_images : Nat) : ReqParams :=
  { num_images_per_prompt := num_images,
    resolution := "1024x1024",
    num_inference_steps := 50 }

/-- Constructor arguments of NPUHiDreamPipeline that the runners use. -/
structure PipelineCfg where
  model_path : String
  extra_model_path : String
  project_path : String
  output_dir : String := "generated_images"
deriving DecidableEq, Repr

/-- The single-device command line built at npu_pipeline.py lines
184-198. -/
def single_cmd (cfg : PipelineCfg) (task_id prompt_file out_dir : String)
    (r : ReqParams) : List String :=
  ["python3", "inference.py",
   "--model_path", cfg.model_path,
   "--model_path_extra", cfg.extra_model_path,
   "--prompt_file", prompt_file,
   "--prompt_file_type", "plain",
   "--info_file_save_path", path_join out_dir (task_id ++ "_info.json"),
   "--save_dir", out_dir,
   "--num_images_per_prompt", toString r.num_images_per_prompt,
   "--resolution", r.resolution,
   "--num_inference_steps", toString r.num_inference_steps,
   "--batch_size", "1",
   "--infer_type", "Accuracy",
   "--device_id", "0"]

/-- The torchrun command line built at npu_pipeline.py lines 143-163,
using the topology computed by the planner in the constructor. -/
def distributed_cmd (cfg : PipelineCfg) (device_count : Nat)
    (task_id prompt_file out_dir : String) (r : ReqParams) : List String :=
  let tp := (calculate_distributed_config device_count).1
  let ep := (calculate_distributed_config device_count).2
  ["torchrun",
   "--nproc_per_node=" ++ toString device_count,
   "--standalone",
   "--nnodes=1",
   "inference.py",
   "--enable_parallelism", "True",
   "--tp_size", toString tp,
   "--ep_size", toString ep,
   "--model_path", cfg.model_path,
   "--model_path_extra", cfg.extra_model_path,
   "--prompt_file", prompt_file,
   "--prompt_file_type", "plain",
   "--info_file_save_path", path_join out_dir (task_id ++ "_info.json"),
   "--save_dir", out_dir,
   "--num_images_per_prompt", toString r.num_images_per_prompt,
   "--resolution", r.resolution,
   "--num_inference_steps", toString r.num_inference_steps,
   "--batch_size", "1",
   "--infer_type", "Accuracy"]

/-- One launch of the external process, as the supervisor observes it:
the streamed output lines, the exit code, and whether the blocking wait
was interrupted (KeyboardInterrupt). -/
structure Attempt where
  lines : List String
  exit_code : Int
  interrupted : Bool := false
deriving DecidableEq, Repr

/-- The external behaviour relevant to one job: the distributed launch
outcome, the single-device launch outcome, and the output directory
contents at collection time. -/
structure World where
  dist_attempt : Attempt
  single_attempt : Attempt
  files : List FileEnt
deriving DecidableEq, Repr

/-- The exceptions that can escape generate_images to process_task:
the RuntimeError of npu_pipeline.py line 270 carrying the exit code, and
KeyboardInterrupt. -/
inductive PipeErr where
  | runtimeErr (code : Int)
  | interrupted
deriving DecidableEq, Repr

/-- The error string process_task stores for each exception: str(e) of the
RuntimeError, and the literal of hidream_api.py line 104 for an
interrupt. -/
def errMsg : PipeErr → String
  | .runtimeErr code => "Inference failed with code " ++ toString code
  | .interrupted => "Task interrupted"

/-- Everything one runner invocation produces: the returned image paths or
the escaping exception, the values forwarded to the progress callback, the
output-line excerpts written to the log, the launched command lines, and
the sequence of os.chdir targets in order. -/
structure ExecOut where
  result : Except PipeErr (List String)
  emitted : List Int
  logs : List (List String)
  cmds : List (List String)
  chdirs : List String
deriving Repr

/-- Embeds _run_single_inference (npu_pipeline.py lines 167-200) followed
by _execute_inference on the python3 command it builds.  Inside that call
device_count is 1 (or the command is not torchrun), so the fallback branch
is unreachable: a non-zero exit logs the last 15 output lines and raises
RuntimeError (lines 266-270).  The finally block at lines 275-276 restores
the working directory on every exit path, interruption included. -/
def run_single_inference (cfg : PipelineCfg) (att : Attempt)
    (files : List FileEnt) (task_id prompt_file out_dir : String)
    (r : ReqParams) (cwd0 : String) : ExecOut :=
  let cmd := single_cmd cfg task_id prompt_file out_dir r
  let emitted := runner_emit att.lines
  if att.interrupted then
    { result := .error .interrupted, emitted := emitted, logs := [],
      cmds := [cmd], chdirs := [cfg.project_path, cwd0] }
  else if att.exit_code ≠ 0 then
    { result := .error (.runtimeErr att.exit_code), emitted := emitted,
      logs := [lastN 15 att.lines], cmds := [cmd],
      chdirs := [cfg.project_path, cwd0] }
  else
    { result := .ok (collect_images files r.num_images_per_prompt),
      emitted := emitted, logs := [], cmds := [cmd],
      chdirs := [cfg.project_path, cwd0] }

/-- Embeds _run_distributed_inference (npu_pipeline.py lines 118-165)
followed by _execute_inference on the torchrun command, including the
fallback branch of lines 245-265: on a non-zero exit with device_count
above 1 the last 10 lines are logged as a warning, device_count is set to
1, and _run_single_inference is called once with the fabricated request;
the try/finally restores device_count and the outer finally restores the
working directory.  The nested call runs with the working directory
already changed to the project path, so its own finally restores the
project path, and the outer finally then restores the original. -/
def run_distributed_inference (cfg : PipelineCfg) (device_count : Nat)
    (world : World) (task_id prompt_file out_dir : String) (r : ReqParams)
    (cwd0 : String) : ExecOut :=
  let cmd := distributed_cmd cfg device_count task_id prompt_file out_dir r
  let att := world.dist_attempt
  let emitted := runner_emit att.lines
  if att.interrupted then
    { result := .error .interrupted, emitted := emitted, logs := [],
      cmds := [cmd], chdirs := [cfg.project_path, cwd0] }
  else if att.exit_code ≠ 0 then
    if 1 < device_count then
      let dname := basename out_dir
      let inner := run_single_inference cfg world.single_attempt world.files
        dname (path_join out_dir (dname ++ "_prompt.txt")) out_dir
        (fallback_request r.num_images_per_prompt) cfg.project_path
      { result := inner.result,
        emitted := emitted ++ inner.emitted,
        logs := lastN 10 att.lines :: inner.logs,
        cmds := cmd :: inner.cmds,
        chdirs := cfg.project_path :: (inner.chdirs ++ [cwd0]) }
    else
      { result := .error (.runtimeErr att.exit_code), emitted := emitted,
        logs := [lastN 15 att.lines], cmds := [cmd],
        chdirs := [cfg.project_path, cwd0] }
  else
    { result := .ok (collect_images world.files r.num_images_per_prompt),
      emitted := emitted, logs := [], cmds := [cmd],
      chdirs := [cfg.project_path, cwd0] }

/-- Embeds NPUHiDreamPipeline.generate_images (npu_pipeline.py lines
72-116): the callback receives 10 and 20 before the launch, the run is
dispatched on device_count, and 100 is forwarded after a successful run.
Directory creation and the prompt-file write are filesystem effects with
no bearing on the claims. -/
def generate_images (cfg : PipelineCfg) (device_count : Nat) (world : World)
    (task_id : String) (req : ImageGenerationRequest) (cwd0 : String) :
    ExecOut :=
  let out_dir := path_join cfg.output_dir task_id
  let prompt_file := path_join out_dir (task_id ++ "_prompt.txt")
  let inner :=
    if 1 < device_count then
      run_distributed_inference cfg device_count world task_id prompt_file
        out_dir (reqParamsOf req) cwd0
    else
      run_single_inference cfg world.single_attempt world.files task_id
        prompt_file out_dir (reqParamsOf req) cwd0
  { inner with
    emitted := 10 :: 20 :: (inner.emitted ++
      (match inner.result with | .ok _ => [100] | .error _ => [])) }

/-- The download URL built for each returned path at hidream_api.py lines
84-86. -/
def mkUrl (base_url path : String) : String :=
  base_url ++ "/images/" ++ basename path

/-- One entry of status_dict (hidream_api.py lines 179-186 list the keys
written at submission).  The float processing_time is modelled as an
opaque integer number of seconds. -/
structure JobRecord where
  status : TaskStatus
  progress : Int
  result_urls : List String
  error : String
  created_at : String
  completed_at : Option String := none
  processing_time : Option Int := none
  request : ImageGenerationRequest
deriving DecidableEq, Repr

/-- The record created for a fresh submission at hidream_api.py lines
179-186: status PENDING, progress 0, no result URLs, empty error. -/
def mkPendingRecord (now : String) (req : ImageGenerationRequest) : JobRecord :=
  { status := .pending, progress := 0, result_urls := [], error := "",
    created_at := now, request := req }

/-- The status_dict mapping from task id to record, as an association
list. -/
abbrev Store := List (String × JobRecord)

/-- Lookup of a task id, embedding status_dict[task_id] reads guarded by
membership tests. -/
def getRec : Store → String → Option JobRecord
  | [], _ => none
  | (k, r) :: t, id => if k = id then some r else getRec t id

/-- Pointwise modification of the record under one id; absent ids leave
the store unchanged. -/
def adjustRec (id : String) (f : JobRecord → JobRecord) : Store → Store
  | [] => []
  | (k, r) :: t => if k = id then (k, f r) :: t else (k, r) :: adjustRec id f t

/-- Insertion or overwrite of the record under one id, embedding the
assignment status_dict[task_id] = record. -/
def insertRec (id : String) (rec : JobRecord) : Store → Store
  | [] => [(id, rec)]
  | (k, r) :: t => if k = id then (id, rec) :: t else (k, r) :: insertRec id rec t

/-- Embeds update_progress (hidream_api.py lines 116-120): when the id is
present the stored progress becomes min(progress, 95), otherwise nothing
happens. -/
def update_progress (s : Store) (task_id : String) (progress : Int) : Store :=
  if (getRec s task_id).isSome then
    adjustRec task_id (fun r => { r with progress := min progress 95 }) s
  else s

/-- Embeds process_task (hidream_api.py lines 61-114) as a function from
the current record of the task and the external behaviour to the final
record the worker leaves in the store: the PROCESSING and progress-10
writes, the pipeline call with its progress callbacks, then the terminal
COMPLETED update of lines 89-95 or the FAILED update of lines 100-114. -/
def process_task_final (cfg : PipelineCfg) (base_url : String)
    (device_count : Nat) (world : World) (task_id : String)
    (rec : JobRecord) (now : String) (pt : Int) (cwd0 : String) : JobRecord :=
  let out := generate_images cfg device_count world task_id rec.request cwd0
  let rec1 := { rec with
    status := TaskStatus.processing,
    progress := (out.emitted.map (fun p => min p 95)).getLastD 10 }
  match out.result with
  | .ok paths =>
      { rec1 with
        status := .completed
        progress := 100
        result_urls := paths.map (mkUrl base_url)
        completed_at := some now
        processing_time := some pt }
  | .error e =>
      { rec1 with
        status := .failed
        error := errMsg e
        completed_at := some now }

/-- The sequence of progress values observable in the store for one job,
in write order: 0 at submission, the direct progress = 10 write of
hidream_api.py line 69, one min(p, 95) write per callback value, and the
100 written by the terminal COMPLETED update. -/
def observed_progress (cfg : PipelineCfg) (device_count : Nat)
    (world : World) (task_id : String) (req : ImageGenerationRequest)
    (cwd0 : String) : List Int :=
  let out := generate_images cfg device_count world task_id req cwd0
  0 :: 10 :: (out.emitted.map (fun p => min p 95) ++
    (match out.result with | .ok _ => [100] | .error _ => []))

/-- One store write performed by the submission handlers or the worker:
submission inserts a fresh PENDING record (hidream_api.py lines 179-186),
the worker sets PROCESSING then progress 10 (lines 68-69), the progress
callback goes through update_progress, and the terminal writes are the
COMPLETED update of lines 89-95 and the FAILED update of lines 102-106 and
110-114.  The side conditions on startProcessing and fail record that the
single sequential consumer processes each dequeued task exactly once, so
PROCESSING only begins on a PENDING record and the FAILED handler only
runs when the COMPLETED update of the same run did not. -/
inductive WStep : Store → Store → Prop where
  | submit (s : Store) (id now : String) (req : ImageGenerationRequest) :
      WStep s (insertRec id (mkPendingRecord now req) s)
  | startProcessing (s : Store) (id : String) (rec : JobRecord)
      (h : getRec s id = some rec) (hp : rec.status = .pending) :
      WStep s (adjustRec id (fun r => { r with status := .processing }) s)
  | progressTen (s : Store) (id : String) :
      WStep s (adjustRec id (fun r => { r with progress := 10 }) s)
  | updateProg (s : Store) (id : String) (p : Int) :
      WStep s (update_progress s id p)
  | complete (s : Store) (id : String) (urls : List String) (now : String)
      (pt : Int) :
      WStep s (adjustRec id (fun r =>
        { r with
          status := .completed
          progress := 100
          result_urls := urls
          completed_at := some now
          processing_time := some pt }) s)
  | fail (s : Store) (id : String) (e : PipeErr) (now : String)
      (rec : JobRecord) (h : getRec s id = some rec)
      (hc : rec.status ≠ .completed) :
      WStep s (adjustRec id (fun r =>
        { r with
          status := .failed
          error := errMsg e
          completed_at := some now }) s)

/-- The stores reachable from the empty initial store through the write
operations of the server. -/
inductive Reach : Store → Prop where
  | init : Reach []
  | step {s s' : Store} : Reach s → WStep s s' → Reach s'

/-- The per-record store invariant: progress above 95 forces the terminal
COMPLETED write with progress exactly 100, result URLs are only ever
non-empty on a COMPLETED record, and a FAILED record carries a non-empty
error string. -/
def recInv (r : JobRecord) : Prop :=
  (95 < r.progress → r.status = .completed ∧ r.progress = 100) ∧
  (r.result_urls ≠ [] → r.status = .completed) ∧
  (r.status = .failed → r.error ≠ "")

/-- A concrete request for concrete evaluations: every optional field at
its default. -/
def exReq : ImageGenerationRequest := { prompt := "p" }

/-- A concrete request whose resolution, step count and image count all
differ from the pydantic defaults. -/
def reqC4 : ImageGenerationRequest :=
  { prompt := "p", resolution := "512x512", num_inference_steps := 30,
    num_images_per_prompt := 3 }

/-- A concrete pipeline configuration. -/
def cfgEx : PipelineCfg :=
  { model_path := "/data/m", extra_model_path := "/data/e",
    project_path := "/workspace/HiDream-I1" }

/-- External behaviour in which the distributed run streams two keyword
lines and exits 1, and the single-device fallback streams one keyword
line and exits 0 with no image files produced. -/
def worldFallbackEx : World :=
  { dist_attempt := { lines := ["step 1", "step 2"], exit_code := 1 },
    single_attempt := { lines := ["step 1"], exit_code := 0 },
    files := [] }

/-- External behaviour in which every launch exits 0 immediately but no
image file is ever produced. -/
def worldEmptySuccess : World :=
  { dist_attempt := { lines := [], exit_code := 0 },
    single_attempt := { lines := [], exit_code := 0 },
    files := [] }

/-- External behaviour in which the distributed run exits 1 silently and
the single-device fallback exits 0. -/
def worldC4 : World :=
  { dist_attempt := { lines := [], exit_code := 1 },
    single_attempt := { lines := [], exit_code := 0 },
    files := [] }

/-- External behaviour in which the single run streams one diagnostic
line and exits 1. -/
def worldC5 : World :=
  { dist_attempt := { lines := [], exit_code := 0 },
    single_attempt := { lines := ["oops failure detail"], exit_code := 1 },
    files := [] }

/-- A concrete store holding one freshly submitted task. -/
def exStore : Store := insertRec "t" (mkPendingRecord "now" exReq) []

/-- The record of the task of exStore after the terminal COMPLETED
update. -/
def exRec100 : JobRecord :=
  { mkPendingRecord "now" exReq with
    status := .completed
    progress := 100
    result_urls := ["u"]
    completed_at := some "c"
    processing_time := some 1 }

/-- The store of exStore after the terminal COMPLETED update of its
task. -/
def exStore2 : Store :=
  adjustRec "t" (fun r =>
    { r with
      status := .completed
      progress := 100
      result_urls := ["u"]
      completed_at := some "c"
      processing_time := some 1 }) exStore

/-- Lookup after adjusting the same id maps the modifier over the
previous result. -/
theorem getRec_adjust_self (id : String) (f : JobRecord → JobRecord) :
    ∀ s : Store, getRec (adjustRec id f s) id = (getRec s id).map f := by
  intro s
  induction s with
  | nil => rfl
  | cons hd t ih =>
    obtain ⟨k, r⟩ := hd
    by_cases hk : k = id
    · simp [adjustRec, getRec, hk]
    · simp [adjustRec, getRec, hk, ih]

/-- Lookup of a different id is unchanged by an adjustment. -/
theorem getRec_adjust_ne {id id' : String} (hne : id' ≠ id)
    (f : JobRecord → JobRecord) :
    ∀ s : Store, getRec (adjustRec id f s) id' = getRec s id' := by
  intro s
  induction s with
  | nil => rfl
  | cons hd t ih =>
    obtain ⟨k, r⟩ := hd
    by_cases hk : k = id
    · subst hk
      have hk2 : ¬ k = id' := fun hcon => hne hcon.symm
      simp [adjustRec, getRec, hk2]
    · by_cases hk2 : k = id'
      · simp [adjustRec, getRec, hk, hk2, hne]
      · simp [adjustRec, getRec, hk, hk2, hne, ih]

/-- Lookup after inserting the same id returns the inserted record. -/
theorem getRec_insert_self (id : String) (rec : JobRecord) :
    ∀ s : Store, getRec (insertRec id rec s) id = some rec := by
  intro s
  induction s with
  | nil => simp [insertRec, getRec]
  | cons hd t ih =>
    obtain ⟨k, r⟩ := hd
    by_cases hk : k = id
    · simp [insertRec, getRec, hk]
    · simp [insertRec, getRec, hk, ih]

/-- Lookup of a different id is unchanged by an insertion. -/
theorem getRec_insert_ne {id id' : String} (hne : id' ≠ id)
    (rec : JobRecord) :
    ∀ s : Store, getRec (insertRec id rec s) id' = getRec s id' := by
  intro s
  have hne2 : ¬ id = id' := fun hcon => hne hcon.symm
  induction s with
  | nil => simp [insertRec, getRec, hne2]
  | cons hd t ih =>
    obtain ⟨k, r⟩ := hd
    by_cases hk : k = id
    · subst hk
      simp [insertRec, getRec, hne2]
    · by_cases hk2 : k = id'
      · simp [insertRec, getRec, hk, hk2, hne]
      · simp [insertRec, getRec, hk, hk2, hne, ih]

/-- Case analysis for a successful lookup in an adjusted store: either the
adjusted id was looked up and was present before, or the lookup is
untouched. -/
theorem adjust_lookup {id id0 : String} {f : JobRecord → JobRecord}
    {s : Store} {r : JobRecord}
    (h : getRec (adjustRec id0 f s) id = some r) :
    (∃ r0, getRec s id = some r0 ∧ id = id0 ∧ r = f r0) ∨
      (id ≠ id0 ∧ getRec s id = some r) := by
  by_cases he : id = id0
  · subst he
    rw [getRec_adjust_self] at h
    cases h0 : getRec s id with
    | none => rw [h0] at h; cases h
    | some r0 =>
      rw [h0] at h
      exact Or.inl ⟨r0, rfl, rfl, (Option.some.inj h).symm⟩
  · exact Or.inr ⟨he, by rwa [getRec_adjust_ne he] at h⟩

/-- The error strings stored by the FAILED updates are never empty. -/
theorem errMsg_ne_empty (e : PipeErr) : errMsg e ≠ "" := by
  cases e with
  | runtimeErr code =>
    intro h
    have h2 := congrArg String.length h
    rw [errMsg, String.length_append] at h2
    have h3 : ("Inference failed with code ").length = 27 := rfl
    have h4 : ("" : String).length = 0 := rfl
    omega
  | interrupted =>
    intro h
    have h2 := congrArg String.length h
    have h3 : ("Task interrupted").length = 16 := rfl
    have h4 : ("" : String).length = 0 := rfl
    rw [errMsg] at h2
    omega

/-- Every record of every reachable store satisfies the invariant. -/
theorem store_inv {s : Store} (hs : Reach s) :
    ∀ id r, getRec s id = some r → recInv r := by
  induction hs with
  | init => intro id r h; cases h
  | step hr hw ih =>
    intro id r h
    cases hw with
    | submit id0 now req =>
      by_cases he : id = id0
      · subst he
        rw [getRec_insert_self] at h
        cases Option.some.inj h
        refine ⟨?_, ?_, ?_⟩ <;> intro hx <;>
          exact absurd hx (by simp [mkPendingRecord])
      · rw [getRec_insert_ne he] at h
        exact ih id r h
    | startProcessing id0 rec0 h0 hp0 =>
      rcases adjust_lookup h with ⟨r0, hr0, heq, hf⟩ | ⟨hne, hget⟩
      · subst heq
        cases (Option.some.inj (h0.symm.trans hr0))
        obtain ⟨i1, i2, i3⟩ := ih id rec0 hr0
        subst hf
        refine ⟨?_, ?_, ?_⟩
        · intro hgt
          exact absurd (hp0.symm.trans (i1 hgt).1) (by decide)
        · intro hn
          exact absurd (hp0.symm.trans (i2 hn)) (by decide)
        · intro hfail
          exact absurd (show TaskStatus.processing = TaskStatus.failed from hfail)
            (by decide)
      · exact ih id r hget
    | progressTen id0 =>
      rcases adjust_lookup h with ⟨r0, hr0, heq, hf⟩ | ⟨hne, hget⟩
      · obtain ⟨i1, i2, i3⟩ := ih id r0 hr0
        subst hf
        refine ⟨?_, ?_, ?_⟩
        · intro hgt
          have hx : (95 : Int) < 10 := hgt
          omega
        · exact i2
        · exact i3
      · exact ih id r hget
    | updateProg id0 p =>
      rename_i s1
      by_cases hpres : (getRec s1 id0).isSome
      · simp only [update_progress, if_pos hpres] at h
        rcases adjust_lookup h with ⟨r0, hr0, heq, hf⟩ | ⟨hne, hget⟩
        · obtain ⟨i1, i2, i3⟩ := ih id r0 hr0
          subst hf
          refine ⟨?_, ?_, ?_⟩
          · intro hgt
            have hx : (95 : Int) < min p 95 := hgt
            omega
          · exact i2
          · exact i3
        · exact ih id r hget
      · simp only [update_progress, if_neg hpres] at h
        exact ih id r h
    | complete id0 urls now pt =>
      rcases adjust_lookup h with ⟨r0, hr0, heq, hf⟩ | ⟨hne, hget⟩
      · subst hf
        refine ⟨fun _ => ⟨rfl, rfl⟩, fun _ => rfl, ?_⟩
        intro hfail
        exact absurd (show TaskStatus.completed = TaskStatus.failed from hfail)
          (by decide)
      · exact ih id r hget
    | fail id0 e now rec0 h0 hc0 =>
      rcases adjust_lookup h with ⟨r0, hr0, heq, hf⟩ | ⟨hne, hget⟩
      · subst heq
        cases (Option.some.inj (h0.symm.trans hr0))
        obtain ⟨i1, i2, i3⟩ := ih id rec0 hr0
        subst hf
        refine ⟨?_, ?_, ?_⟩
        · intro hgt
          exact absurd (i1 hgt).1 hc0
        · intro hn
          exact absurd (i2 hn) hc0
        · intro _
          exact errMsg_ne_empty e
      · exact ih id r hget

/-- Values forwarded by the read loop from any counter at least 30 lie
strictly above 30 and at most 85. -/
theorem runner_run_bounds (lines : List String) :
    ∀ p : Int, 30 ≤ p → ∀ v ∈ (runner_run p lines).2, 30 < v ∧ v ≤ 85 := by
  induction lines with
  | nil =>
    intro p hp v hv
    simp [runner_run] at hv
  | cons l rest ih =>
    intro p hp v hv
    by_cases hm : line_matches l
    · simp only [runner_run, runner_step, hm, if_true, List.singleton_append,
        List.mem_cons] at hv
      rcases hv with h | h
      · subst h
        constructor <;> omega
      · exact ih (min (p + 2) 85) (by omega) v h
    · simp only [runner_run, runner_step, hm, if_false, List.nil_append] at hv
      exact ih p hp v hv

/-- The forwarded values, prefixed with the current counter, are
non-decreasing whenever the counter is at most the ceiling. -/
theorem runner_run_chain (lines : List String) :
    ∀ p : Int, p ≤ 85 →
      List.Chain' (fun a b => a ≤ b) (p :: (runner_run p lines).2) := by
  induction lines with
  | nil => intro p hp; simp [runner_run]
  | cons l rest ih =>
    intro p hp
    by_cases hm : line_matches l
    · simp only [runner_run, runner_step, hm, if_true, List.singleton_append]
      exact List.chain'_cons.mpr ⟨by omega, ih (min (p + 2) 85) (by omega)⟩
    · simp only [runner_run, runner_step, hm, if_false, List.nil_append]
      exact ih p hp

/-- The final counter value: the start plus twice the number of matching
lines, clamped at 85. -/
theorem runner_run_counter (lines : List String) :
    ∀ p : Int, p ≤ 85 →
      (runner_run p lines).1 =
        min (p + 2 * (lines.countP line_matches : Int)) 85 := by
  induction lines with
  | nil =>
    intro p hp
    simp only [runner_run, List.countP_nil]
    omega
  | cons l rest ih =>
    intro p hp
    by_cases hm : line_matches l
    · rw [List.countP_cons, if_pos hm]
      simp only [runner_run, runner_step, hm, eq_self_iff_true, if_true,
        List.singleton_append]
      rw [ih (min (p + 2) 85) (by omega)]
      push_cast
      omega
    · rw [List.countP_cons, if_neg hm]
      simp only [runner_run, runner_step, hm, Bool.false_eq_true, if_false,
        List.nil_append]
      rw [ih p hp]
      push_cast
      omega

/-- The planner in the default branch. -/
theorem calc_config_otherwise {d : Nat} (h1 : d ≠ 1) (h2 : d ≠ 2)
    (h4 : d ≠ 4) (h8 : d ≠ 8) :
    calculate_distributed_config d = (min 4 d, d / min 4 d) := by
  unfold calculate_distributed_config
  rw [if_neg h1, if_neg h2, if_neg h4, if_neg h8]

/-- C6: for every positive device count d the planner returns a pair
(tp, ep) with tp at least 1, ep at least 1 and tp times ep at most d,
returns the fixed pairs at d = 1, 2, 4 and 8, and otherwise returns
tp = min(4, d) and ep = d / tp by integer division; being a plain
function of d it is deterministic and side-effect-free. -/
theorem planner_contract (d : Nat) (hd : 1 ≤ d) :
    (1 ≤ (calculate_distributed_config d).1 ∧
     1 ≤ (calculate_distributed_config d).2 ∧
     (calculate_distributed_config d).1 * (calculate_distributed_config d).2 ≤ d) ∧
    calculate_distributed_config 1 = (1, 1) ∧
    calculate_distributed_config 2 = (2, 1) ∧
    calculate_distributed_config 4 = (4, 1) ∧
    calculate_distributed_config 8 = (4, 2) ∧
    (d ≠ 1 → d ≠ 2 → d ≠ 4 → d ≠ 8 →
      calculate_distributed_config d = (min 4 d, d / min 4 d)) := by
  refine ⟨?_, rfl, rfl, rfl, rfl, fun h1 h2 h4 h8 => calc_config_otherwise h1 h2 h4 h8⟩
  by_cases h1 : d = 1
  · subst h1; decide
  by_cases h2 : d = 2
  · subst h2; decide
  by_cases h4 : d = 4
  · subst h4; decide
  by_cases h8 : d = 8
  · subst h8; decide
  rw [calc_config_otherwise h1 h2 h4 h8]
  refine ⟨by simp; omega, ?_, ?_⟩
  · have hle : min 4 d ≤ d := Nat.min_le_right 4 d
    have hpos : 0 < min 4 d := by omega
    simp only
    rw [Nat.one_le_div_iff hpos]
    exact hle
  · simp only
    calc min 4 d * (d / min 4 d) = d / min 4 d * min 4 d := Nat.mul_comm _ _
    _ ≤ d := Nat.div_mul_le_self d (min 4 d)

/-- Witness for the planner contract at device count 6. -/
theorem planner_contract_witness :
    1 ≤ 6 ∧
    ((1 ≤ (calculate_distributed_config 6).1 ∧
      1 ≤ (calculate_distributed_config 6).2 ∧
      (calculate_distributed_config 6).1 * (calculate_distributed_config 6).2 ≤ 6) ∧
     calculate_distributed_config 1 = (1, 1) ∧
     calculate_distributed_config 2 = (2, 1) ∧
     calculate_distributed_config 4 = (4, 1) ∧
     calculate_distributed_config 8 = (4, 2) ∧
     (6 ≠ 1 → 6 ≠ 2 → 6 ≠ 4 → 6 ≠ 8 →
       calculate_distributed_config 6 = (min 4 6, 6 / min 4 6))) :=
  ⟨by decide, planner_contract 6 (by decide)⟩

/-- C7: across one read loop the runner advances its counter by exactly 2
per keyword line clamped at a ceiling of 85 from a start of 30, so the
final counter is min(30 + 2 times the matching-line count, 85); every
value forwarded to the progress sink lies strictly above 30 and at most
85; and the forwarded sequence is non-decreasing. -/
theorem runner_progress_contract (lines : List String) :
    (runner_run 30 lines).1 =
      min (30 + 2 * (lines.countP line_matches : Int)) 85 ∧
    (∀ v ∈ runner_emit lines, 30 < v ∧ v ≤ 85) ∧
    List.Chain' (fun a b => a ≤ b) (runner_emit lines) := by
  refine ⟨runner_run_counter lines 30 (by omega),
    runner_run_bounds lines 30 (by omega), ?_⟩
  exact (runner_run_chain lines 30 (by omega)).tail

/-- Witness for the runner contract on a single matching line. -/
theorem runner_progress_contract_witness :
    ((32 : Int) ∈ runner_emit ["step 1"]) ∧ (30 < (32 : Int) ∧ (32 : Int) ≤ 85) :=
  ⟨by decide, (runner_progress_contract ["step 1"]).2.1 32 (by decide)⟩

/-- The chdir sequence of one single-device run is always the project
path followed by the saved original directory. -/
theorem run_single_inference_chdirs (cfg : PipelineCfg) (att : Attempt)
    (files : List FileEnt) (task_id prompt_file out_dir : String)
    (r : ReqParams) (cwd0 : String) :
    (run_single_inference cfg att files task_id prompt_file out_dir r
      cwd0).chdirs = [cfg.project_path, cwd0] := by
  unfold run_single_inference
  split_ifs <;> rfl

/-- The launched command of one single-device run, on every path. -/
theorem run_single_inference_cmds (cfg : PipelineCfg) (att : Attempt)
    (files : List FileEnt) (task_id prompt_file out_dir : String)
    (r : ReqParams) (cwd0 : String) :
    (run_single_inference cfg att files task_id prompt_file out_dir r
      cwd0).cmds = [single_cmd cfg task_id prompt_file out_dir r] := by
  unfold run_single_inference
  split_ifs <;> rfl

/-- The chdir sequence of a distributed run ends at the saved original
directory on every path, the fallback included. -/
theorem run_distributed_inference_chdirs (cfg : PipelineCfg)
    (device_count : Nat) (world : World)
    (task_id prompt_file out_dir : String) (r : ReqParams) (cwd0 : String) :
    ∃ l, (run_distributed_inference cfg device_count world task_id
      prompt_file out_dir r cwd0).chdirs = l ++ [cwd0] := by
  unfold run_distributed_inference
  simp only []
  split_ifs <;>
    first
      | exact ⟨[cfg.project_path], rfl⟩
      | exact ⟨cfg.project_path ::
          (run_single_inference cfg world.single_attempt world.files
            (basename out_dir)
            (path_join out_dir (basename out_dir ++ "_prompt.txt")) out_dir
            (fallback_request r.num_images_per_prompt)
            cfg.project_path).chdirs, rfl⟩

/-- C9: the process-wide working directory after the inference execution
step equals the one before it on every exit path (normal return, failure
with or without fallback, interruption): the chdir sequence of the whole
call ends with the directory saved on entry. -/
theorem execution_restores_cwd (cfg : PipelineCfg) (device_count : Nat)
    (world : World) (task_id : String) (req : ImageGenerationRequest)
    (cwd0 : String) :
    (∃ l, (generate_images cfg device_count world task_id req cwd0).chdirs
        = l ++ [cwd0]) ∧
    (generate_images cfg device_count world task_id req
      cwd0).chdirs.getLast? = some cwd0 := by
  have h : ∃ l, (generate_images cfg device_count world task_id req
      cwd0).chdirs = l ++ [cwd0] := by
    unfold generate_images
    simp only []
    by_cases hd : 1 < device_count
    · simp only [hd, if_true]
      exact run_distributed_inference_chdirs cfg device_count world _ _ _ _ cwd0
    · simp only [hd, if_false]
      exact ⟨[cfg.project_path], by rw [run_single_inference_chdirs]; rfl⟩
  obtain ⟨l, hl⟩ := h
  exact ⟨⟨l, hl⟩, by rw [hl, List.getLast?_concat]⟩

/-- Outcome of a single-device run whose process exits 0 without
interruption. -/
theorem run_single_inference_ok (cfg : PipelineCfg) (att : Attempt)
    (files : List FileEnt) (task_id prompt_file out_dir : String)
    (r : ReqParams) (cwd0 : String)
    (hni : att.interrupted = false) (hz : att.exit_code = 0) :
    run_single_inference cfg att files task_id prompt_file out_dir r cwd0 =
      { result := .ok (collect_images files r.num_images_per_prompt),
        emitted := runner_emit att.lines, logs := [],
        cmds := [single_cmd cfg task_id prompt_file out_dir r],
        chdirs := [cfg.project_path, cwd0] } := by
  unfold run_single_inference
  rw [if_neg (by simp [hni]), if_neg (by simp [hz])]

/-- Outcome of a single-device run whose process exits non-zero without
interruption: a RuntimeError carrying the exit code, and the last 15
output lines written to the log. -/
theorem run_single_inference_err (cfg : PipelineCfg) (att : Attempt)
    (files : List FileEnt) (task_id prompt_file out_dir : String)
    (r : ReqParams) (cwd0 : String)
    (hni : att.interrupted = false) (hz : att.exit_code ≠ 0) :
    run_single_inference cfg att files task_id prompt_file out_dir r cwd0 =
      { result := .error (.runtimeErr att.exit_code),
        emitted := runner_emit att.lines, logs := [lastN 15 att.lines],
        cmds := [single_cmd cfg task_id prompt_file out_dir r],
        chdirs := [cfg.project_path, cwd0] } := by
  unfold run_single_inference
  rw [if_neg (by simp [hni]), if_pos hz]

/-- Shape of a distributed run that exits non-zero without interruption
with more than one device: the last 10 lines go to the log and the
single-device fallback runs once with the fabricated request. -/
theorem run_distributed_inference_fallback (cfg : PipelineCfg)
    (device_count : Nat) (world : World)
    (task_id prompt_file out_dir : String) (r : ReqParams) (cwd0 : String)
    (hd : 1 < device_count)
    (hni : world.dist_attempt.interrupted = false)
    (hfail : world.dist_attempt.exit_code ≠ 0) :
    run_distributed_inference cfg device_count world task_id prompt_file
      out_dir r cwd0 =
      (let inner := run_single_inference cfg world.single_attempt world.files
         (basename out_dir)
         (path_join out_dir (basename out_dir ++ "_prompt.txt")) out_dir
         (fallback_request r.num_images_per_prompt) cfg.project_path
       { result := inner.result,
         emitted := runner_emit world.dist_attempt.lines ++ inner.emitted,
         logs := lastN 10 world.dist_attempt.lines :: inner.logs,
         cmds := distributed_cmd cfg device_count task_id prompt_file
           out_dir r :: inner.cmds,
         chdirs := cfg.project_path :: (inner.chdirs ++ [cwd0]) }) := by
  unfold run_distributed_inference
  rw [if_neg (by simp [hni]), if_pos hfail, if_pos hd]

/-- The dispatch of generate_images for more than one device. -/
theorem generate_images_dist (cfg : PipelineCfg) (device_count : Nat)
    (world : World) (task_id : String) (req : ImageGenerationRequest)
    (cwd0 : String) (hd : 1 < device_count) :
    generate_images cfg device_count world task_id req cwd0 =
      (let inner := run_distributed_inference cfg device_count world task_id
         (path_join (path_join cfg.output_dir task_id) (task_id ++ "_prompt.txt"))
         (path_join cfg.output_dir task_id) (reqParamsOf req) cwd0
       { inner with
         emitted := 10 :: 20 :: (inner.emitted ++
           (match inner.result with | .ok _ => [100] | .error _ => [])) }) := by
  unfold generate_images
  simp only []
  rw [if_pos hd]

/-- The dispatch of generate_images for a single device. -/
theorem generate_images_single (cfg : PipelineCfg) (device_count : Nat)
    (world : World) (task_id : String) (req : ImageGenerationRequest)
    (cwd0 : String) (hd : ¬ 1 < device_count) :
    generate_images cfg device_count world task_id req cwd0 =
      (let inner := run_single_inference cfg world.single_attempt world.files
         task_id
         (path_join (path_join cfg.output_dir task_id) (task_id ++ "_prompt.txt"))
         (path_join cfg.output_dir task_id) (reqParamsOf req) cwd0
       { inner with
         emitted := 10 :: 20 :: (inner.emitted ++
           (match inner.result with | .ok _ => [100] | .error _ => [])) }) := by
  unfold generate_images
  simp only []
  rw [if_neg hd]

/-- Command lines launched across a distributed failure with fallback:
the torchrun command, then exactly one python3 single-device command
built from the fabricated request. -/
theorem generate_images_fallback_cmds (cfg : PipelineCfg)
    (device_count : Nat) (world : World) (task_id : String)
    (req : ImageGenerationRequest) (cwd0 : String)
    (hd : 1 < device_count)
    (hni : world.dist_attempt.interrupted = false)
    (hfail : world.dist_attempt.exit_code ≠ 0) :
    (generate_images cfg device_count world task_id req cwd0).cmds =
      [distributed_cmd cfg device_count task_id
         (path_join (path_join cfg.output_dir task_id) (task_id ++ "_prompt.txt"))
         (path_join cfg.output_dir task_id) (reqParamsOf req),
       single_cmd cfg (basename (path_join cfg.output_dir task_id))
         (path_join (path_join cfg.output_dir task_id)
           (basename (path_join cfg.output_dir task_id) ++ "_prompt.txt"))
         (path_join cfg.output_dir task_id)
         (fallback_request req.num_images_per_prompt)] := by
  rw [generate_images_dist cfg device_count world task_id req cwd0 hd]
  simp only []
  rw [run_distributed_inference_fallback cfg device_count world task_id _ _ _
    cwd0 hd hni hfail]
  simp only []
  rw [run_single_inference_cmds]
  rfl

/-- The result of a distributed failure with fallback is the result of
the single fallback run. -/
theorem generate_images_fallback_result (cfg : PipelineCfg)
    (device_count : Nat) (world : World) (task_id : String)
    (req : ImageGenerationRequest) (cwd0 : String)
    (hd : 1 < device_count)
    (hni : world.dist_attempt.interrupted = false)
    (hfail : world.dist_attempt.exit_code ≠ 0) :
    (generate_images cfg device_count world task_id req cwd0).result =
      (run_single_inference cfg world.single_attempt world.files
        (basename (path_join cfg.output_dir task_id))
        (path_join (path_join cfg.output_dir task_id)
          (basename (path_join cfg.output_dir task_id) ++ "_prompt.txt"))
        (path_join cfg.output_dir task_id)
        (fallback_request req.num_images_per_prompt)
        cfg.project_path).result := by
  rw [generate_images_dist cfg device_count world task_id req cwd0 hd]
  simp only []
  rw [run_distributed_inference_fallback cfg device_count world task_id _ _ _
    cwd0 hd hni hfail]
  rfl

/-- The terminal COMPLETED update of process_task on a successful
pipeline result. -/
theorem process_task_final_ok (cfg : PipelineCfg) (base_url : String)
    (device_count : Nat) (world : World) (task_id : String)
    (rec : JobRecord) (now : String) (pt : Int) (cwd0 : String)
    (paths : List String)
    (h : (generate_images cfg device_count world task_id rec.request
      cwd0).result = .ok paths) :
    (process_task_final cfg base_url device_count world task_id rec now pt
        cwd0).status = .completed ∧
    (process_task_final cfg base_url device_count world task_id rec now pt
        cwd0).error = rec.error ∧
    (process_task_final cfg base_url device_count world task_id rec now pt
        cwd0).result_urls = paths.map (mkUrl base_url) ∧
    (process_task_final cfg base_url device_count world task_id rec now pt
        cwd0).progress = 100 := by
  unfold process_task_final
  simp only []
  rw [h]
  exact ⟨rfl, rfl, rfl, rfl⟩

/-- The terminal FAILED update of process_task on a pipeline
exception. -/
theorem process_task_final_err (cfg : PipelineCfg) (base_url : String)
    (device_count : Nat) (world : World) (task_id : String)
    (rec : JobRecord) (now : String) (pt : Int) (cwd0 : String)
    (e : PipeErr)
    (h : (generate_images cfg device_count world task_id rec.request
      cwd0).result = .error e) :
    (process_task_final cfg base_url device_count world task_id rec now pt
        cwd0).status = .failed ∧
    (process_task_final cfg base_url device_count world task_id rec now pt
        cwd0).error = errMsg e ∧
    (process_task_final cfg base_url device_count world task_id rec now pt
        cwd0).result_urls = rec.result_urls := by
  unfold process_task_final
  simp only []
  rw [h]
  exact ⟨rfl, rfl, rfl⟩

/-- C3: a distributed run (device count above 1) that exits non-zero
triggers exactly one single-device retry and never recurses: exactly two
commands are launched, the second being the python3 single-device command
with the fabricated request; if the retry exits zero the job ends
COMPLETED with its error field still empty, and if the retry exits
non-zero the job ends FAILED carrying the retry exit code; with device
count 1 exactly one command is launched, so no fallback ever occurs. -/
theorem fallback_supervisor_contract (cfg : PipelineCfg)
    (device_count : Nat) (world : World)
    (task_id now0 base_url cwd0 : String)
    (req : ImageGenerationRequest) (pt : Int)
    (hd : 1 < device_count)
    (hfail : world.dist_attempt.exit_code ≠ 0)
    (hni : world.dist_attempt.interrupted = false)
    (hnis : world.single_attempt.interrupted = false) :
    ((generate_images cfg device_count world task_id req cwd0).cmds.length = 2 ∧
     (generate_images cfg device_count world task_id req cwd0).cmds.getLast?
       = some (single_cmd cfg (basename (path_join cfg.output_dir task_id))
           (path_join (path_join cfg.output_dir task_id)
             (basename (path_join cfg.output_dir task_id) ++ "_prompt.txt"))
           (path_join cfg.output_dir task_id)
           (fallback_request req.num_images_per_prompt))) ∧
    (world.single_attempt.exit_code = 0 →
      (process_task_final cfg base_url device_count world task_id
        (mkPendingRecord now0 req) now0 pt cwd0).status = .completed ∧
      (process_task_final cfg base_url device_count world task_id
        (mkPendingRecord now0 req) now0 pt cwd0).error = "") ∧
    (world.single_attempt.exit_code ≠ 0 →
      (process_task_final cfg base_url device_count world task_id
        (mkPendingRecord now0 req) now0 pt cwd0).status = .failed ∧
      (process_task_final cfg base_url device_count world task_id
        (mkPendingRecord now0 req) now0 pt cwd0).error =
          "Inference failed with code " ++
            toString world.single_attempt.exit_code) ∧
    (∀ world1 req1,
      (generate_images cfg 1 world1 task_id req1 cwd0).cmds.length = 1) := by
  refine ⟨⟨?_, ?_⟩, ?_, ?_, ?_⟩
  · rw [generate_images_fallback_cmds cfg device_count world task_id req cwd0
      hd hni hfail]
    rfl
  · rw [generate_images_fallback_cmds cfg device_count world task_id req cwd0
      hd hni hfail]
    rfl
  · intro hz
    have hres := generate_images_fallback_result cfg device_count world
      task_id req cwd0 hd hni hfail
    rw [run_single_inference_ok _ _ _ _ _ _ _ _ hnis hz] at hres
    have hok := process_task_final_ok cfg base_url device_count world task_id
      (mkPendingRecord now0 req) now0 pt cwd0 _ hres
    exact ⟨hok.1, hok.2.1⟩
  · intro hz
    have hres := generate_images_fallback_result cfg device_count world
      task_id req cwd0 hd hni hfail
    rw [run_single_inference_err _ _ _ _ _ _ _ _ hnis hz] at hres
    have herr := process_task_final_err cfg base_url device_count world task_id
      (mkPendingRecord now0 req) now0 pt cwd0 _ hres
    exact ⟨herr.1, herr.2.1⟩
  · intro world1 req1
    rw [generate_images_single cfg 1 world1 task_id req1 cwd0 (by omega)]
    simp only []
    rw [run_single_inference_cmds]
    rfl

/-- Witness for the fallback supervisor contract: device count 8, a
silent distributed failure and a clean single-device retry. -/
theorem fallback_supervisor_contract_witness :
    (generate_images cfgEx 8 worldC4 "t1" reqC4 "/cwd").cmds.length = 2 ∧
    (process_task_final cfgEx "http://localhost:8088" 8 worldC4 "t1"
      (mkPendingRecord "now" reqC4) "now" 5 "/cwd").status = .completed ∧
    (process_task_final cfgEx "http://localhost:8088" 8 worldC4 "t1"
      (mkPendingRecord "now" reqC4) "now" 5 "/cwd").error = "" := by
  have h := fallback_supervisor_contract cfgEx 8 worldC4 "t1" "now"
    "http://localhost:8088" "/cwd" reqC4 5 (by decide) (by decide) rfl rfl
  exact ⟨h.1.1, (h.2.1 rfl).1, (h.2.1 rfl).2⟩

/-- C4 counterexample: for an original request asking for 3 images the
fallback retry command still asks for 3 images, not the default 1, so the
retry does not substitute the default image count; the fabricated retry
request differs from the all-defaults request. -/
theorem fallback_defaults_counterexample :
    (generate_images cfgEx 8 worldC4 "t1" reqC4 "/cwd").cmds =
      [distributed_cmd cfgEx 8 "t1" "generated_images/t1/t1_prompt.txt"
        "generated_images/t1" (reqParamsOf reqC4),
       single_cmd cfgEx "t1" "generated_images/t1/t1_prompt.txt"
        "generated_images/t1" (fallback_request 3)] ∧
    (fallback_request 3).num_images_per_prompt = 3 ∧
    fallback_request 3 ≠ reqParamsOf { prompt := "p" } ∧
    reqC4.num_images_per_prompt = 3 ∧
    ({ prompt := "p" } : ImageGenerationRequest).num_images_per_prompt = 1 := by
  refine ⟨by decide, rfl, by decide, rfl, rfl⟩

/-- C4 amended: the fallback retry request passed to the runner
substitutes the default resolution 1024x1024 and the default step count
50 in place of the original values, but keeps the original image
count. -/
theorem fallback_request_amended (cfg : PipelineCfg) (device_count : Nat)
    (world : World) (task_id cwd0 : String) (req : ImageGenerationRequest)
    (hd : 1 < device_count)
    (hfail : world.dist_attempt.exit_code ≠ 0)
    (hni : world.dist_attempt.interrupted = false) :
    (generate_images cfg device_count world task_id req cwd0).cmds =
      [distributed_cmd cfg device_count task_id
         (path_join (path_join cfg.output_dir task_id) (task_id ++ "_prompt.txt"))
         (path_join cfg.output_dir task_id) (reqParamsOf req),
       single_cmd cfg (basename (path_join cfg.output_dir task_id))
         (path_join (path_join cfg.output_dir task_id)
           (basename (path_join cfg.output_dir task_id) ++ "_prompt.txt"))
         (path_join cfg.output_dir task_id)
         (fallback_request req.num_images_per_prompt)] ∧
    (fallback_request req.num_images_per_prompt).resolution = "1024x1024" ∧
    (fallback_request req.num_images_per_prompt).num_inference_steps = 50 ∧
    (fallback_request req.num_images_per_prompt).num_images_per_prompt
      = req.num_images_per_prompt := by
  exact ⟨generate_images_fallback_cmds cfg device_count world task_id req cwd0
    hd hni hfail, rfl, rfl, rfl⟩

/-- Witness for the amended fallback-request claim at device count 8. -/
theorem fallback_request_amended_witness :
    (fallback_request reqC4.num_images_per_prompt).resolution = "1024x1024" ∧
    (fallback_request reqC4.num_images_per_prompt).num_images_per_prompt
      = reqC4.num_images_per_prompt := by
  have h := fallback_request_amended cfgEx 8 worldC4 "t1" "/cwd" reqC4
    (by decide) (by decide) rfl
  exact ⟨h.2.1, h.2.2.2⟩

/-- The store with one freshly submitted task is reachable. -/
theorem reach_exStore : Reach exStore :=
  Reach.step Reach.init (WStep.submit [] "t" "now" exReq)

/-- The store whose task went through the terminal COMPLETED update is
reachable. -/
theorem reach_exStore2 : Reach exStore2 :=
  Reach.step reach_exStore (WStep.complete exStore "t" ["u"] "c" 1)

/-- C1 counterexample: with device count 8, a distributed run that
streams two keyword lines and exits 1, and a fallback that streams one
keyword line and succeeds, the store-observable progress sequence is
0, 10, 10, 20, 32, 34, 32, 95, 100, which is not non-decreasing while the
job is PENDING or PROCESSING: the fallback read loop restarts its counter
at 30 after the distributed run had already reported 34. -/
theorem progress_monotone_counterexample :
    observed_progress cfgEx 8 worldFallbackEx "t1" exReq "/cwd" =
      [0, 10, 10, 20, 32, 34, 32, 95, 100] ∧
    ¬ List.Chain' (fun a b => a ≤ b)
      (observed_progress cfgEx 8 worldFallbackEx "t1" exReq "/cwd") := by
  have he : observed_progress cfgEx 8 worldFallbackEx "t1" exReq "/cwd" =
      [0, 10, 10, 20, 32, 34, 32, 95, 100] := by decide
  refine ⟨he, fun hch => ?_⟩
  rw [he] at hch
  simp only [List.chain'_cons, List.chain'_singleton] at hch
  omega

/-- C1 amended: progress is exactly 0 with status PENDING at creation; in
every reachable store a progress of 100 occurs only on a COMPLETED
record; and the forwarded progress sequence is non-decreasing within each
single runner invocation.  Across a failed distributed run and its
single-device retry the observable progress can decrease, because the
retry restarts the counter at 30. -/
theorem progress_invariant_amended :
    (∀ now req, (mkPendingRecord now req).progress = 0 ∧
      (mkPendingRecord now req).status = .pending) ∧
    (∀ s, Reach s → ∀ id r, getRec s id = some r → r.progress = 100 →
      r.status = .completed) ∧
    (∀ lines, List.Chain' (fun a b => a ≤ b) (runner_emit lines)) := by
  refine ⟨fun now req => ⟨rfl, rfl⟩, ?_, ?_⟩
  · intro s hs id r hget hp
    exact ((store_inv hs id r hget).1 (by omega)).1
  · intro lines
    exact (runner_run_chain lines 30 (by omega)).tail

/-- Witness for the amended progress invariant on the completed record of
a concrete reachable store. -/
theorem progress_invariant_amended_witness :
    getRec exStore2 "t" = some exRec100 ∧
    exRec100.progress = 100 ∧
    exRec100.status = TaskStatus.completed := by
  refine ⟨rfl, rfl, ?_⟩
  exact progress_invariant_amended.2.1 exStore2 reach_exStore2 "t" exRec100
    rfl rfl

/-- C2 counterexample: a run whose external process exits 0 without
writing any image file is marked COMPLETED with an empty result list, so
a COMPLETED job does not always have non-empty result locations. -/
theorem results_iff_completed_counterexample :
    (process_task_final cfgEx "http://localhost:8088" 1 worldEmptySuccess
      "t1" (mkPendingRecord "now" exReq) "done" 5 "/cwd").status =
        TaskStatus.completed ∧
    (process_task_final cfgEx "http://localhost:8088" 1 worldEmptySuccess
      "t1" (mkPendingRecord "now" exReq) "done" 5 "/cwd").result_urls = [] :=
  ⟨by decide, by decide⟩

/-- C2 amended: in every reachable store a record with non-empty result
URLs is COMPLETED; equivalently the result sequence is always empty while
the status is PENDING, PROCESSING or FAILED.  The converse direction of
the claimed equivalence fails: a COMPLETED job can carry an empty result
list when the process wrote no image files. -/
theorem results_nonempty_implies_completed :
    ∀ s, Reach s → ∀ id r, getRec s id = some r →
      (r.result_urls ≠ [] → r.status = .completed) ∧
      (r.status ≠ .completed → r.result_urls = []) := by
  intro s hs id r hget
  have h2 := (store_inv hs id r hget).2.1
  refine ⟨h2, fun hne => ?_⟩
  by_cases hu : r.result_urls = []
  · exact hu
  · exact absurd (h2 hu) hne

/-- Witness for the amended results claim on a concrete PENDING
record. -/
theorem results_nonempty_implies_completed_witness :
    (mkPendingRecord "now" exReq).result_urls = [] :=
  (results_nonempty_implies_completed exStore reach_exStore "t"
    (mkPendingRecord "now" exReq) rfl).2 (by decide)

/-- C5 counterexample: a single-device run that streams one diagnostic
line and exits 1 ends FAILED with the error string Inference failed with
code 1, which does not contain the captured output line at all; the line
reaches only the log. -/
theorem failed_error_lines_counterexample :
    (process_task_final cfgEx "http://localhost:8088" 1 worldC5 "t1"
      (mkPendingRecord "now" exReq) "done" 5 "/cwd").status =
        TaskStatus.failed ∧
    (process_task_final cfgEx "http://localhost:8088" 1 worldC5 "t1"
      (mkPendingRecord "now" exReq) "done" 5 "/cwd").error =
      "Inference failed with code 1" ∧
    sub_chars "oops failure detail".toList
      ("Inference failed with code 1").toList = false ∧
    (generate_images cfgEx 1 worldC5 "t1" exReq "/cwd").logs =
      [["oops failure detail"]] :=
  ⟨by decide, by decide, by decide, by decide⟩

/-- C5 amended: every FAILED record of a reachable store carries a
non-empty error string; a failing run stores the error Inference failed
with code N, with no output lines included; the output-line excerpts go
to the log instead: the last 15 lines of a failed single-device run, and
for a distributed failure whose fallback also fails, the last 10 lines of
the distributed run followed by the last 15 lines of the fallback run. -/
theorem failed_error_amended :
    (∀ s, Reach s → ∀ id r, getRec s id = some r → r.status = .failed →
      r.error ≠ "") ∧
    (∀ cfg att files task_id prompt_file out_dir rp cwd0,
      att.interrupted = false → att.exit_code ≠ 0 →
      (run_single_inference cfg att files task_id prompt_file out_dir rp
        cwd0).result = .error (.runtimeErr att.exit_code) ∧
      (run_single_inference cfg att files task_id prompt_file out_dir rp
        cwd0).logs = [lastN 15 att.lines]) ∧
    (∀ cfg device_count world task_id prompt_file out_dir rp cwd0,
      1 < device_count →
      world.dist_attempt.interrupted = false →
      world.dist_attempt.exit_code ≠ 0 →
      world.single_attempt.interrupted = false →
      world.single_attempt.exit_code ≠ 0 →
      (run_distributed_inference cfg device_count world task_id prompt_file
        out_dir rp cwd0).logs =
        [lastN 10 world.dist_attempt.lines,
         lastN 15 world.single_attempt.lines] ∧
      (run_distributed_inference cfg device_count world task_id prompt_file
        out_dir rp cwd0).result =
        .error (.runtimeErr world.single_attempt.exit_code)) ∧
    (∀ e, errMsg e ≠ "") := by
  refine ⟨?_, ?_, ?_, errMsg_ne_empty⟩
  · intro s hs id r hget hf
    exact (store_inv hs id r hget).2.2 hf
  · intro cfg att files task_id prompt_file out_dir rp cwd0 hni hz
    rw [run_single_inference_err cfg att files task_id prompt_file out_dir
      rp cwd0 hni hz]
    exact ⟨rfl, rfl⟩
  · intro cfg dc world task_id prompt_file out_dir rp cwd0 hd hni hz hnis hzs
    rw [run_distributed_inference_fallback cfg dc world task_id prompt_file
      out_dir rp cwd0 hd hni hz]
    simp only []
    rw [run_single_inference_err _ _ _ _ _ _ _ _ hnis hzs]
    exact ⟨rfl, rfl⟩

/-- Witness for the amended error claim on a concrete failing
single-device run. -/
theorem failed_error_amended_witness :
    (run_single_inference cfgEx worldC5.single_attempt [] "t1" "pf" "od"
      (reqParamsOf exReq) "/cwd").logs = [["oops failure detail"]] := by
  have h := failed_error_amended.2.1 cfgEx worldC5.single_attempt [] "t1"
    "pf" "od" (reqParamsOf exReq) "/cwd" rfl (by decide)
  rw [h.2]
  decide

/-- Membership in the glob results implies membership in the directory
with a matching image extension. -/
theorem mem_globbed {f : FileEnt} {files : List FileEnt}
    (h : f ∈ globbed_images files) :
    f ∈ files ∧ ∃ ext ∈ image_globs, matches_glob f ext = true := by
  unfold globbed_images at h
  rw [List.mem_flatten] at h
  obtain ⟨l, hl, hf⟩ := h
  rw [List.mem_map] at hl
  obtain ⟨ext, hext, rfl⟩ := hl
  rw [List.mem_filter] at hf
  exact ⟨hf.1, ext, hext, hf.2⟩

/-- C8: the collector returns the paths of at most N files, each drawn
from the directory and matching one of the fixed image extensions,
ordered by modification time descending; a directory with no matching
files yields the empty list rather than an error. -/
theorem collector_contract (files : List FileEnt) (n : Nat) :
    (∃ ents : List FileEnt,
      collect_images files n = ents.map (fun f => f.path) ∧
      List.Sorted mtimeGeRel ents ∧
      ents.length ≤ n ∧
      ∀ f ∈ ents, f ∈ files ∧
        ∃ ext ∈ image_globs, matches_glob f ext = true) ∧
    (globbed_images files = [] → collect_images files n = []) := by
  constructor
  · by_cases hemp : (globbed_images files).isEmpty
    · refine ⟨[], ?_, List.sorted_nil, by simp, by simp⟩
      unfold collect_images
      simp only []
      rw [if_pos hemp]
      rfl
    · refine ⟨(List.insertionSort mtimeGeRel (globbed_images files)).take n,
        ?_, ?_, ?_, ?_⟩
      · unfold collect_images
        simp only []
        rw [if_neg hemp]
      · exact List.Pairwise.sublist (List.take_sublist n _)
          (List.sorted_insertionSort mtimeGeRel _)
      · exact List.length_take_le n _
      · intro f hf
        have hmem : f ∈ List.insertionSort mtimeGeRel (globbed_images files) :=
          List.mem_of_mem_take hf
        have hmem2 : f ∈ globbed_images files :=
          (List.perm_insertionSort mtimeGeRel _).mem_iff.mp hmem
        exact mem_globbed hmem2
  · intro h
    unfold collect_images
    simp only []
    rw [if_pos (by rw [h]; rfl)]

/-- Witness for the collector contract on an empty directory. -/
theorem collector_contract_witness :
    globbed_images [] = [] ∧ collect_images [] 3 = [] :=
  ⟨rfl, (collector_contract [] 3).2 rfl⟩

/-- C10: update_progress with an absent id leaves the store unchanged and
raises nothing (it is a total function); with a present id the stored
progress becomes min(p, 95) and no other id changes; and in every
reachable store a progress above 95 occurs only as the exact value 100
written together with COMPLETED by the terminal update. -/
theorem update_progress_contract (s : Store) (id : String) (p : Int) :
    (getRec s id = none → update_progress s id p = s) ∧
    (∀ r, getRec s id = some r →
      getRec (update_progress s id p) id =
        some { r with progress := min p 95 } ∧
      ∀ id', id' ≠ id →
        getRec (update_progress s id p) id' = getRec s id') ∧
    (Reach s → ∀ id0 r, getRec s id0 = some r → 95 < r.progress →
      r.status = .completed ∧ r.progress = 100) := by
  refine ⟨?_, ?_, ?_⟩
  · intro h
    unfold update_progress
    rw [h]
    rfl
  · intro r hr
    have hsome : (getRec s id).isSome := by rw [hr]; rfl
    constructor
    · unfold update_progress
      rw [if_pos hsome, getRec_adjust_self, hr]
      rfl
    · intro id' hne
      unfold update_progress
      rw [if_pos hsome]
      exact getRec_adjust_ne hne _ s
  · intro hs id0 r hget hgt
    exact (store_inv hs id0 r hget).1 hgt

/-- Witness for the update_progress contract on a concrete store: an
absent id changes nothing, a present id is clamped to 95, and the
completed record of a reachable store holds progress 100. -/
theorem update_progress_contract_witness :
    update_progress exStore "absent" 50 = exStore ∧
    getRec (update_progress exStore "t" 120) "t" =
      some { mkPendingRecord "now" exReq with progress := min 120 95 } ∧
    (exRec100.status = TaskStatus.completed ∧ exRec100.progress = 100) := by
  refine ⟨?_, ?_, ?_⟩
  · exact (update_progress_contract exStore "absent" 50).1 rfl
  · exact ((update_progress_contract exStore "t" 120).2.1
      (mkPendingRecord "now" exReq) rfl).1
  · exact (update_progress_contract exStore2 "t" 0).2.2 reach_exStore2 "t"
      exRec100 rfl (by decide)

end HidreamAPI
